import Mathlib

set_option maxRecDepth 4000

/-!
Shallow embedding of the jazurdia/restaurant-webscraper repository:

* `src/pipeline.py` — the review-cleaning transform `clean_reviews` with its
  helpers `_make_composite_key` and `_ts_to_datetime`;
* `src/webscraper.py` — the multi-account scraper `ApifyMultiAccountScraper`
  with `get_next_available_client`, `_is_credit_error`,
  `scrape_restaurant_reviews` and `scrape_multiple_restaurants`.

Tables are modelled as a column list plus rows of (column, cell) pairs; cells
carry Python values (string, number, boolean, datetime, date, or NaN/absent).
Numeric cells are modelled as integers (no claim exercises fractional values).
External effects (CSV input/output, logging, the Apify network service, the
clock) are modelled by explicit parameters and traces: the adapter is an
oracle indexed by the number of calls made so far, the live credit check is an
oracle on token indices, and back-off sleeps are recorded in a list.

All string utilities are re-implemented by structural recursion on character
lists so that every definition reduces inside the kernel.
-/

/-! ### Python-style string helpers (ASCII) -/

/-- Characters matched by the regex class backslash-s, as used by
`re.sub` in `clean_reviews` (space, tab, newline, carriage return,
vertical tab, form feed). -/
def isPySpace (c : Char) : Bool :=
  c == ' ' || c == '\t' || c == '\n' || c == '\r' || c.toNat == 11 || c.toNat == 12

/-- Python `str.strip()` on a character list. -/
def pyTrimList (l : List Char) : List Char :=
  ((l.dropWhile isPySpace).reverse.dropWhile isPySpace).reverse

/-- Split a character list into maximal runs of non-whitespace characters
(the accumulator holds the current run, reversed). -/
def tokensAux : List Char → List Char → List (List Char)
  | [], cur => if cur.isEmpty then [] else [cur.reverse]
  | c :: rest, cur =>
    if isPySpace c then
      if cur.isEmpty then tokensAux rest [] else cur.reverse :: tokensAux rest []
    else
      tokensAux rest (c :: cur)

/-- Join words with single spaces. -/
def joinSpace : List (List Char) → List Char
  | [] => []
  | [w] => w
  | w :: ws => w ++ (' ' :: joinSpace ws)

/-- `df["review_text"].str.replace(r"\s+", " ", regex=True).str.strip()`:
collapse every whitespace run to a single space and trim both ends. -/
def normalizeText (s : String) : String :=
  String.mk (joinSpace (tokensAux s.data []))

/-- Parse a non-empty all-digit character list as a natural number. -/
def parseNatDigits (l : List Char) : Option Nat :=
  if l.isEmpty then none
  else
    l.foldl
      (fun acc c =>
        match acc with
        | none => none
        | some n => if c.isDigit then some (n * 10 + (c.toNat - 48)) else none)
      (some 0)

/-- Integer parsing as performed by `pd.to_numeric` on a trimmed string
(optional sign followed by digits).  Fractional numerals are outside the
integer value model and coerce to absent. -/
def parseIntChars : List Char → Option Int
  | '-' :: rest => (parseNatDigits rest).map (fun n => -(n : Int))
  | '+' :: rest => (parseNatDigits rest).map (fun n => (n : Int))
  | l => (parseNatDigits l).map (fun n => (n : Int))

/-- ASCII lowering, enough for the credit-error keyword scan
(all keywords are ASCII). -/
def asciiLower (c : Char) : Char :=
  if 'A' ≤ c ∧ c ≤ 'Z' then Char.ofNat (c.toNat + 32) else c

/-- Does `hay` start with `needle`? -/
def listStartsWith : List Char → List Char → Bool
  | _, [] => true
  | [], _ :: _ => false
  | a :: as, b :: bs => a == b && listStartsWith as bs

/-- Python substring containment `needle in hay`. -/
def containsSub : List Char → List Char → Bool
  | [], needle => needle.isEmpty
  | a :: t, needle => listStartsWith (a :: t) needle || containsSub t needle

/-! ### Cell values -/

/-- One table cell: Python string, integer number, boolean, UTC datetime
(nanoseconds since epoch), calendar date, or NaN/absent. -/
inductive Value where
  | str (s : String)
  | num (n : Int)
  | bool (b : Bool)
  | dt (ns : Int)
  | date (y m d : Int)
  | absent
deriving DecidableEq

/-- Nanoseconds per day. -/
def NS_PER_DAY : Int := 86400000000000

/-- Proleptic Gregorian calendar date (year, month, day) from a day count
relative to 1970-01-01 (the standard civil-from-days algorithm; every
intermediate division has a non-negative numerator, so Euclidean division
agrees with the usual truncating division). -/
def civilFromDays (z : Int) : Int × Int × Int :=
  let z' := z + 719468
  let era := z'.ediv 146097
  let doe := z'.emod 146097
  let yoe := (doe - doe.ediv 1460 + doe.ediv 36524 - doe.ediv 146096).ediv 365
  let y := yoe + era * 400
  let doy := doe - (365 * yoe + yoe.ediv 4 - yoe.ediv 100)
  let mp := (5 * doy + 2).ediv 153
  let d := doy - (153 * mp + 2).ediv 5 + 1
  let m := mp + (if mp < 10 then 3 else -9)
  (if m ≤ 2 then y + 1 else y, m, d)

/-- Two-digit zero padding. -/
def pad2 (n : Int) : String := if n < 10 then "0" ++ toString n else toString n

/-- Python `str(value)` on a cell.  `str(nan)` is `"nan"`, booleans render
capitalized.  The datetime/date renderings approximate pandas output
(sub-second digits omitted); no theorem depends on them because derived
datetime columns never feed the composite key. -/
def Value.pyStr : Value → String
  | .str s => s
  | .num n => toString n
  | .bool b => if b then "True" else "False"
  | .absent => "nan"
  | .date y m d => toString y ++ "-" ++ pad2 m ++ "-" ++ pad2 d
  | .dt ns =>
    let c := civilFromDays (ns.ediv NS_PER_DAY)
    let secs := (ns.emod NS_PER_DAY).ediv 1000000000
    toString c.1 ++ "-" ++ pad2 c.2.1 ++ "-" ++ pad2 c.2.2 ++ " " ++
      pad2 (secs.ediv 3600) ++ ":" ++ pad2 ((secs.ediv 60).emod 60) ++ ":" ++
      pad2 (secs.emod 60) ++ "+00:00"

/-- `pd.to_numeric(value, errors="coerce")` on one cell, in the integer
value model: numbers pass through, booleans become 0/1, strings are parsed
after trimming, everything else (and any parse failure) becomes absent. -/
def toNumeric : Value → Option Int
  | .num n => some n
  | .bool b => some (if b then 1 else 0)
  | .str s => parseIntChars (pyTrimList s.data)
  | .dt _ => none
  | .date _ _ _ => none
  | .absent => none

/-! ### Rows and tables -/

/-- A row is an association list from column names to cells.  Rows are
observed only through `rowGet`, so cell assignment may shadow-prepend. -/
abbrev Row := List (String × Value)

def rowGet (r : Row) (c : String) : Option Value :=
  (r.find? (fun p => p.1 == c)).map (fun p => p.2)

/-- The cell of row `r` in column `c` (NaN when the row has no entry). -/
def rowVal (r : Row) (c : String) : Value :=
  (rowGet r c).getD Value.absent

/-- Cell assignment `df.loc[row, c] = v`, observed only through `rowGet`. -/
def rowSet (r : Row) (c : String) (v : Value) : Row := (c, v) :: r

structure Table where
  cols : List String
  rows : List Row
deriving DecidableEq

/-- `df.columns` membership after a column assignment `df[c] = ...`. -/
def addCol (cols : List String) (c : String) : List String :=
  if c ∈ cols then cols else cols ++ [c]

/-! ### pipeline.py: composite key and deduplication -/

/-- The five fields hashed by `_make_composite_key`, in source order. -/
def keyFields : List String :=
  ["review_id", "restaurant_name", "reviewer_name", "review_text", "published_timestamp"]

/-- `str(row.get(c, ""))`: the default `""` applies only when the column is
absent from the frame; a missing value in an existing column renders as
`"nan"`. -/
def rowKeyStr (cols : List String) (r : Row) (c : String) : String :=
  if c ∈ cols then (rowVal r c).pyStr else ""

/-- Join the key parts with the literal separator `"||"`. -/
def joinPipes : List String → String
  | [] => ""
  | [x] => x
  | x :: xs => x ++ "||" ++ joinPipes xs

/-- `_make_composite_key` (pipeline.py lines 16-24).  The MD5 digest is
modelled by the joined pre-image string itself (an injective stand-in for
the hash). -/
def _make_composite_key (cols : List String) (r : Row) : String :=
  joinPipes (keyFields.map (rowKeyStr cols r))

/-- The dedup pass of `clean_reviews` (lines 36-38):
`key.duplicated()` keeps the first row of every key and counts the later
occurrences.  `seen` is the set of keys of rows already kept. -/
def dedupGo (cols : List String) : List Row → List String → List Row × Nat
  | [], _ => ([], 0)
  | r :: rs, seen =>
    let k := _make_composite_key cols r
    if k ∈ seen then
      let p := dedupGo cols rs seen
      (p.1, p.2 + 1)
    else
      let p := dedupGo cols rs (k :: seen)
      (r :: p.1, p.2)

/-- Modelled from the spec wording for step 1 of the Normalizer: "drop all
rows whose key has already been seen, keeping first occurrence in input
order. Record the count removed."  Here `earlier` collects the key of every
row already scanned, kept or dropped. -/
def specDedup (cols : List String) : List Row → List String → List Row × Nat
  | [], _ => ([], 0)
  | r :: rs, earlier =>
    let k := _make_composite_key cols r
    if k ∈ earlier then
      let p := specDedup cols rs (earlier ++ [k])
      (p.1, p.2 + 1)
    else
      let p := specDedup cols rs (earlier ++ [k])
      (r :: p.1, p.2)

/-! ### pipeline.py: cleaning steps -/

/-- The numeric columns coerced by the loop at lines 41-43. -/
def numericCols : List String := ["rating", "likes_count", "reviewer_total_reviews"]

/-- `pd.to_numeric(df[col], errors="coerce")` on one cell. -/
def coerceNumericValue (v : Value) : Value :=
  match toNumeric v with
  | some n => Value.num n
  | none => Value.absent

/-- One row under the numeric-coercion loop. -/
def numericRow (cols : List String) (r : Row) : Row :=
  numericCols.foldl
    (fun r c => if c ∈ cols then rowSet r c (coerceNumericValue (rowVal r c)) else r) r

/-- Lines 41-43 of pipeline.py. -/
def numericStep (t : Table) : Table :=
  ⟨t.cols, t.rows.map (numericRow t.cols)⟩

/-- `pd.Timestamp` bound: the largest magnitude of nanoseconds since epoch
representable in the signed 64-bit datetime64 payload, 2^63 - 1.
`pd.to_datetime(..., errors="coerce")` coerces anything beyond it to NaT. -/
def nsMax : Int := 9223372036854775807

/-- Convert one timestamp cell to a UTC instant in nanoseconds, given the
unit decided for the whole column (`_ts_to_datetime`, lines 26-30): scale
by the unit, coerce out-of-range results to NaT/absent. -/
def instantOf (useMs : Bool) (v : Value) : Option Int :=
  match toNumeric v with
  | none => none
  | some n =>
    let ns := n * (if useMs then 1000000 else 1000000000)
    if -nsMax ≤ ns ∧ ns ≤ nsMax then some ns else none

/-- The unit heuristic of `_ts_to_datetime` (line 28): milliseconds when the
mean of `dropna() > 10**12` exceeds one half, i.e. when strictly more than
half of the non-absent numeric values exceed 10^12 (an empty column votes
seconds, since the NaN mean compares false). -/
def tsUseMs (rows : List Row) : Bool :=
  let nums := rows.filterMap (fun r => toNumeric (rowVal r "published_timestamp"))
  decide (nums.length < 2 * (nums.filter (fun v => decide (1000000000000 < v))).length)

/-- One row under the four date assignments of lines 52-56: the instant
column first, then date/year/month read back from it. -/
def tsRow (useMs : Bool) (r : Row) : Row :=
  let r1 := rowSet r "review_datetime_utc"
    (match instantOf useMs (rowVal r "published_timestamp") with
     | some ns => Value.dt ns
     | none => Value.absent)
  let r2 := rowSet r1 "review_date"
    (match rowVal r1 "review_datetime_utc" with
     | Value.dt ns =>
       let c := civilFromDays (ns.ediv NS_PER_DAY)
       Value.date c.1 c.2.1 c.2.2
     | _ => Value.absent)
  let r3 := rowSet r2 "review_year"
    (match rowVal r2 "review_datetime_utc" with
     | Value.dt ns => Value.num (civilFromDays (ns.ediv NS_PER_DAY)).1
     | _ => Value.absent)
  rowSet r3 "review_month"
    (match rowVal r3 "review_datetime_utc" with
     | Value.dt ns => Value.num (civilFromDays (ns.ediv NS_PER_DAY)).2.1
     | _ => Value.absent)

/-- Lines 51-56 of pipeline.py. -/
def tsStep (t : Table) : Table :=
  if "published_timestamp" ∈ t.cols then
    ⟨addCol (addCol (addCol (addCol t.cols "review_datetime_utc") "review_date")
        "review_year") "review_month",
     t.rows.map (tsRow (tsUseMs t.rows))⟩
  else t

/-- The four derived columns assigned by the timestamp step. -/
def tsDerivedCols : List String :=
  ["review_datetime_utc", "review_date", "review_year", "review_month"]

/-- One row under the text cleanup of line 60: `astype(str)` then collapse
whitespace and trim. -/
def textRow (r : Row) : Row :=
  rowSet r "review_text" (Value.str (normalizeText (rowVal r "review_text").pyStr))

/-- Lines 59-60 of pipeline.py. -/
def textStep (t : Table) : Table :=
  if "review_text" ∈ t.cols then ⟨addCol t.cols "review_text", t.rows.map textRow⟩
  else t

/-- The canonical-neighborhood map `CANON_MAP` of pipeline.py. -/
def CANON_MAP : List (String × String) :=
  [("UWS", "Upper West Side"), ("UES", "Upper East Side"), ("U.E.S", "Upper East Side"),
   ("Midtown West", "Midtown"), ("Midtown East", "Midtown")]

/-- `Series.replace(CANON_MAP)`: exact matches map through, everything else
passes unchanged. -/
def canonReplace (s : String) : String :=
  ((CANON_MAP.find? (fun p => p.1 == s)).map (fun p => p.2)).getD s

/-- Python `str.strip()` on the rendered cell. -/
def pyStrip (s : String) : String := String.mk (pyTrimList s.data)

/-- One row under lines 64-65. -/
def neighborhoodRow (r : Row) : Row :=
  let r1 := rowSet r "neighborhood_norm" (Value.str (pyStrip (rowVal r "neighborhood").pyStr))
  rowSet r1 "neighborhood_canon"
    (Value.str (canonReplace (rowVal r1 "neighborhood_norm").pyStr))

/-- Lines 63-65 of pipeline.py. -/
def neighborhoodStep (t : Table) : Table :=
  if "neighborhood" ∈ t.cols then
    ⟨addCol (addCol t.cols "neighborhood_norm") "neighborhood_canon",
     t.rows.map neighborhoodRow⟩
  else t

/-- The table produced by a successful run of `clean_reviews`: dedup, then
numeric coercion, timestamp handling, text cleanup and neighborhood
canonicalization, in source order. -/
def cleanPipeline (t : Table) : Table :=
  neighborhoodStep (textStep (tsStep (numericStep ⟨t.cols, (dedupGo t.cols t.rows []).1⟩)))

/-- `clean_reviews` (pipeline.py lines 32-79), as a function from the parsed
input table to either the cleaned table plus the number of removed
duplicates, or the exception escaping the function.  Line 47 applies
`.strip()` directly to a pandas Series (not to its `.str` accessor), which
raises `AttributeError` whenever the `is_local_guide` column exists, before
the timestamp/text/neighborhood steps run.  CSV reading/writing and the
optional data-dictionary document are external I/O and are not modelled. -/
def clean_reviews (t : Table) : Except String (Table × Nat) :=
  let p := dedupGo t.cols t.rows []
  let df := numericStep ⟨t.cols, p.1⟩
  if "is_local_guide" ∈ df.cols then
    Except.error "AttributeError: Series object has no attribute strip"
  else
    Except.ok (neighborhoodStep (textStep (tsStep df)), p.2)

/-- The duplicate count reported by running `clean_reviews` a second time on
its own cleaned output (`none` when either run raises). -/
def secondRunDupes (t : Table) : Option Nat :=
  match clean_reviews t with
  | .error _ => none
  | .ok (out, _) =>
    match clean_reviews out with
    | .error _ => none
    | .ok (_, n2) => some n2

/-! ### webscraper.py: data model -/

/-- One raw item streamed from the Apify dataset; each field is optional,
mirroring `item.get(field, default)` in `_safe_get_field`. -/
structure RawItem where
  name : Option String
  stars : Option Int
  text : Option String
  textTranslated : Option String
  publishedAtDate : Option String
  publishAt : Option Int
  likesCount : Option Int
  reviewerNumberOfReviews : Option Int
  isLocalGuide : Option Bool
  responseFromOwnerText : Option String
  reviewId : Option String
  reviewUrl : Option String
deriving DecidableEq

/-- The enriched review dictionary assembled at webscraper.py lines 266-284. -/
structure Review where
  restaurant_name : String
  neighborhood : String
  cuisine_type : String
  place_url : String
  reviewer_name : String
  rating : Option Int
  review_text : String
  review_text_translated : String
  review_length : Nat
  published_date : String
  published_timestamp : Option Int
  likes_count : Int
  reviewer_total_reviews : Int
  is_local_guide : Bool
  owner_response : Option String
  review_id : Option String
  review_url : Option String
deriving DecidableEq

/-- One restaurant to scrape. -/
structure ScrapeTarget where
  place_url : String
  restaurant_name : String
  neighborhood : String
  cuisine_type : String
deriving DecidableEq

/-- Build the enriched review for one item (lines 266-284), with the
defaults used by each `_safe_get_field` call. -/
def enrichReview (tgt : ScrapeTarget) (item : RawItem) : Review :=
  { restaurant_name := tgt.restaurant_name
    neighborhood := tgt.neighborhood
    cuisine_type := tgt.cuisine_type
    place_url := tgt.place_url
    reviewer_name := item.name.getD "Anonymous"
    rating := item.stars
    review_text := item.text.getD ""
    review_text_translated := item.textTranslated.getD ""
    review_length := (item.text.getD "").length
    published_date := item.publishedAtDate.getD "Unknown"
    published_timestamp := item.publishAt
    likes_count := item.likesCount.getD 0
    reviewer_total_reviews := item.reviewerNumberOfReviews.getD 0
    is_local_guide := item.isLocalGuide.getD false
    owner_response := item.responseFromOwnerText
    review_id := item.reviewId
    review_url := item.reviewUrl }

/-- The mutable state of `ApifyMultiAccountScraper`: the token list (the
client list has the same length), the round-robin cursor, the exhausted
index set (a duplicate-free list standing for the Python set), and the
accumulated `all_reviews`. -/
structure PoolState where
  apiTokens : List String
  currentTokenIndex : Nat
  tokensExhausted : List Nat
  allReviews : List Review
deriving DecidableEq

/-- `self.current_token_index = (self.current_token_index + 1) % len(self.clients)`. -/
def advanceCursor (s : PoolState) : PoolState :=
  { s with currentTokenIndex := (s.currentTokenIndex + 1) % s.apiTokens.length }

/-- `self.tokens_exhausted.add(i)` (set insertion). -/
def markExhausted (i : Nat) (s : PoolState) : PoolState :=
  { s with tokensExhausted :=
      if i ∈ s.tokensExhausted then s.tokensExhausted else i :: s.tokensExhausted }

/-! ### webscraper.py: credential pool -/

/-- The scan loop of `get_next_available_client` (lines 126-159).  `fuel` is
the remaining value of `max_attempts - attempts`; `creditOk` is the result
of `check_token_credits` for each index (that helper returns `True` both on
a positive balance and when the balance query itself fails).  Returns the
final state and the chosen token index, or `none` after scanning every
credential without finding a usable one. -/
def getNextLoop (creditOk : Nat → Bool) (checkCredits : Bool) :
    Nat → PoolState → PoolState × Option Nat
  | 0, s => (s, none)
  | fuel + 1, s =>
    if s.currentTokenIndex ∈ s.tokensExhausted then
      getNextLoop creditOk checkCredits fuel (advanceCursor s)
    else
      let tokenIndex := s.currentTokenIndex
      if checkCredits then
        if creditOk tokenIndex then (advanceCursor s, some tokenIndex)
        else getNextLoop creditOk checkCredits fuel (markExhausted tokenIndex (advanceCursor s))
      else
        (advanceCursor s, some tokenIndex)

/-- `get_next_available_client` (lines 114-159): scan at most
`len(self.clients)` positions. -/
def get_next_available_client (creditOk : Nat → Bool) (checkCredits : Bool)
    (s : PoolState) : PoolState × Option Nat :=
  getNextLoop creditOk checkCredits s.apiTokens.length s

/-! ### webscraper.py: error classification and the retry loop -/

/-- The keyword list of `_is_credit_error` (lines 177-183). -/
def credit_error_keywords : List String :=
  ["insufficient credits", "not enough credits", "credit limit",
   "payment required", "quota exceeded"]

/-- `_is_credit_error` (lines 167-186): lowercase the message and test each
keyword for substring containment. -/
def is_credit_error (msg : String) : Bool :=
  credit_error_keywords.any (fun k => containsSub (msg.data.map asciiLower) k.data)

/-- One adapter interaction (`client.actor(...).call` plus the dataset
stream): the actor run succeeds and streams items, returns without a
`defaultDatasetId` (invalid response), or raises with a message. -/
inductive AdapterResult where
  | success (items : List RawItem)
  | invalidResponse
  | errorRaised (msg : String)
deriving DecidableEq

/-- The observable outcome of `scrape_restaurant_reviews`: final scraper
state, total adapter calls made so far (the oracle index), the back-off
sleeps performed in order, and the returned review list. -/
structure ScrapeResult where
  state : PoolState
  adapterCalls : Nat
  sleeps : List Nat
  reviews : List Review
deriving DecidableEq

/-- The `for attempt in range(self.max_retries)` body of
`scrape_restaurant_reviews` (lines 227-339).  `fuel` counts the remaining
loop iterations (`maxRetries - attempt`); `calls` indexes the adapter
oracle with the number of calls already made.  Faithful details: credits
are live-checked only from the second iteration on (line 231); a failure
whose message matches a credit keyword marks the token exhausted and takes
`continue`, which moves the Python loop to the next `attempt` value; any
other failure sleeps `2 ** attempt` seconds unless the loop is on its last
iteration. -/
def scrapeLoop (creditOk : Nat → Bool) (adapter : Nat → AdapterResult)
    (maxRetries : Nat) (tgt : ScrapeTarget) :
    Nat → Nat → Nat → List Nat → PoolState → ScrapeResult
  | 0, _, calls, sleeps, s => ⟨s, calls, sleeps, []⟩
  | fuel + 1, attempt, calls, sleeps, s =>
    match get_next_available_client creditOk (decide (0 < attempt)) s with
    | (s1, none) => ⟨s1, calls, sleeps, []⟩
    | (s1, some tokenIndex) =>
      match adapter calls with
      | .success items =>
        let reviews := items.map (enrichReview tgt)
        ⟨{ s1 with allReviews := s1.allReviews ++ reviews }, calls + 1, sleeps, reviews⟩
      | .invalidResponse =>
        if attempt + 2 ≤ maxRetries then
          scrapeLoop creditOk adapter maxRetries tgt fuel (attempt + 1) (calls + 1)
            (sleeps ++ [2 ^ attempt]) s1
        else ⟨s1, calls + 1, sleeps, []⟩
      | .errorRaised msg =>
        if is_credit_error msg then
          let s2 := markExhausted tokenIndex s1
          if s2.apiTokens.length ≤ s2.tokensExhausted.length then
            ⟨s2, calls + 1, sleeps, []⟩
          else
            scrapeLoop creditOk adapter maxRetries tgt fuel (attempt + 1) (calls + 1) sleeps s2
        else if attempt + 2 ≤ maxRetries then
          scrapeLoop creditOk adapter maxRetries tgt fuel (attempt + 1) (calls + 1)
            (sleeps ++ [2 ^ attempt]) s1
        else ⟨s1, calls + 1, sleeps, []⟩

/-- `scrape_restaurant_reviews` (lines 188-339), starting with `calls0`
adapter calls already recorded against the oracle. -/
def scrape_restaurant_reviews (creditOk : Nat → Bool) (adapter : Nat → AdapterResult)
    (maxRetries : Nat) (tgt : ScrapeTarget) (calls0 : Nat) (s : PoolState) : ScrapeResult :=
  scrapeLoop creditOk adapter maxRetries tgt maxRetries 0 calls0 [] s

/-! ### webscraper.py: batch orchestration -/

/-- The per-target loop of `scrape_multiple_restaurants` (lines 374-408):
before each target, stop the whole batch once every token is exhausted;
otherwise scrape the target and continue with the updated state.  The
courtesy sleeps between targets and the periodic checkpoint saves are pure
I/O with no effect on the state and are not modelled. -/
def smrGo (creditOk : Nat → Bool) (adapter : Nat → AdapterResult) (maxRetries : Nat) :
    List ScrapeTarget → Nat → PoolState → PoolState × Nat
  | [], calls, s => (s, calls)
  | tgt :: rest, calls, s =>
    if s.apiTokens.length ≤ s.tokensExhausted.length then (s, calls)
    else
      let r := scrape_restaurant_reviews creditOk adapter maxRetries tgt calls s
      smrGo creditOk adapter maxRetries rest r.adapterCalls r.state

/-- `scrape_multiple_restaurants` (lines 341-418): run the per-target loop
and return `self.all_reviews`, together with the final state and the total
number of adapter calls. -/
def scrape_multiple_restaurants (creditOk : Nat → Bool) (adapter : Nat → AdapterResult)
    (maxRetries : Nat) (targets : List ScrapeTarget) (s : PoolState) :
    PoolState × Nat × List Review :=
  let p := smrGo creditOk adapter maxRetries targets 0 s
  (p.1, p.2, p.1.allReviews)

/-! ### Concrete instances used by the claim theorems and witnesses -/

def exTarget : ScrapeTarget := ⟨"https://maps.example/r1", "Trattoria", "Chelsea", "Italian"⟩

def exItem : RawItem :=
  ⟨some "Alice", some 5, some "Great food", none, none, some 1600000000, some 0, some 3,
   some false, none, some "r1", none⟩

/-- Adapter that raises a credit-exhaustion error on its first call and
succeeds with one item on every later call. -/
def creditThenSuccessAdapter : Nat → AdapterResult := fun k =>
  if k = 0 then AdapterResult.errorRaised "Monthly usage hard limit exceeded: insufficient credits"
  else AdapterResult.success [exItem]

def exPoolTwoTokens : PoolState := ⟨["t1", "t2"], 0, [], []⟩

def exPoolOneToken : PoolState := ⟨["t1"], 0, [], []⟩

def exPoolAllExhausted : PoolState := ⟨["t1", "t2"], 0, [0, 1], []⟩

def exPoolOneExhausted : PoolState := ⟨["t1", "t2"], 0, [0], []⟩

def exPoolSingleExhausted : PoolState := ⟨["t1"], 0, [0], []⟩

def exLocalGuideTable : Table := ⟨["is_local_guide"], [[("is_local_guide", Value.str "true")]]⟩

def exWhitespaceDupTable : Table :=
  ⟨["review_text"], [[("review_text", Value.str " hi")], [("review_text", Value.str "hi ")]]⟩

def exNormalTextTable : Table := ⟨["review_text"], [[("review_text", Value.str "hi")]]⟩

def exOutOfRangeTsTable : Table :=
  ⟨["published_timestamp"], [[("published_timestamp", Value.num 10000000000000)]]⟩

def exMostlyLargeTsTable : Table :=
  ⟨["published_timestamp"],
   [[("published_timestamp", Value.num 2000000000000)],
    [("published_timestamp", Value.num 3000000000000)],
    [("published_timestamp", Value.str "x")]]⟩

def exMostlySmallTsTable : Table :=
  ⟨["published_timestamp"],
   [[("published_timestamp", Value.num 1600000000)], [("published_timestamp", Value.num 5)]]⟩

/-- Two rows identical in all five key fields but with different ratings. -/
def exFiveFieldDupTable : Table :=
  ⟨["review_id", "restaurant_name", "reviewer_name", "review_text", "published_timestamp",
    "rating"],
   [[("review_id", Value.str "a"), ("restaurant_name", Value.str "R"),
     ("reviewer_name", Value.str "u"), ("review_text", Value.str "t"),
     ("published_timestamp", Value.num 5), ("rating", Value.num 4)],
    [("review_id", Value.str "a"), ("restaurant_name", Value.str "R"),
     ("reviewer_name", Value.str "u"), ("review_text", Value.str "t"),
     ("published_timestamp", Value.num 5), ("rating", Value.num 1)]]⟩

def exAbsentTextTable : Table :=
  ⟨["review_text", "rating"], [[("review_text", Value.absent), ("rating", Value.str "4")]]⟩

/-! ### Pool lemmas -/

/-- Scanning a pool whose credentials are all exhausted skips every position
and runs out of fuel, returning no client. -/
theorem getNextLoop_none_of_all_exhausted (creditOk : Nat → Bool) (cb : Bool) :
    ∀ (fuel : Nat) (s : PoolState), s.currentTokenIndex < s.apiTokens.length →
      (∀ i, i < s.apiTokens.length → i ∈ s.tokensExhausted) →
      ∃ s', getNextLoop creditOk cb fuel s = (s', none) := by
  intro fuel
  induction fuel with
  | zero => intro s _ _; exact ⟨s, rfl⟩
  | succ n ih =>
    intro s hcur hall
    have hmem : s.currentTokenIndex ∈ s.tokensExhausted := hall _ hcur
    have hlen : 0 < s.apiTokens.length := by omega
    have h2 : (advanceCursor s).currentTokenIndex < (advanceCursor s).apiTokens.length := by
      simp only [advanceCursor]
      exact Nat.mod_lt _ hlen
    have h3 : ∀ i, i < (advanceCursor s).apiTokens.length →
        i ∈ (advanceCursor s).tokensExhausted := by
      simp only [advanceCursor]
      exact hall
    obtain ⟨s', hs'⟩ := ih (advanceCursor s) h2 h3
    exact ⟨s', by simp [getNextLoop, hmem, hs']⟩

/-- With the live credit check disabled, the scan loop leaves the token
list, the exhausted set and the review collection untouched. -/
theorem getNextLoop_noCheck_frame (creditOk : Nat → Bool) :
    ∀ (fuel : Nat) (s : PoolState),
      (getNextLoop creditOk false fuel s).1.apiTokens = s.apiTokens
      ∧ (getNextLoop creditOk false fuel s).1.tokensExhausted = s.tokensExhausted
      ∧ (getNextLoop creditOk false fuel s).1.allReviews = s.allReviews := by
  intro fuel
  induction fuel with
  | zero => intro s; exact ⟨rfl, rfl, rfl⟩
  | succ n ih =>
    intro s
    by_cases hmem : s.currentTokenIndex ∈ s.tokensExhausted
    · have h := ih (advanceCursor s)
      simp only [advanceCursor] at h
      simpa [getNextLoop, hmem] using h
    · simp [getNextLoop, hmem, advanceCursor]

/-- With the live credit check disabled, the scan returns a client as soon
as it reaches an unexhausted index, and every index at cyclic distance
below the remaining fuel is reached. -/
theorem getNextLoop_noCheck_some (creditOk : Nat → Bool) :
    ∀ (fuel : Nat) (s : PoolState), s.currentTokenIndex < s.apiTokens.length →
      (∃ k, k < fuel ∧ ((s.currentTokenIndex + k) % s.apiTokens.length) ∉ s.tokensExhausted) →
      ∃ j, (getNextLoop creditOk false fuel s).2 = some j := by
  intro fuel
  induction fuel with
  | zero =>
    rintro s _ ⟨k, hk, _⟩
    exact absurd hk (Nat.not_lt_zero k)
  | succ n ih =>
    rintro s hcur ⟨k, hk, hkmem⟩
    by_cases hmem : s.currentTokenIndex ∈ s.tokensExhausted
    · have hk0 : k ≠ 0 := by
        intro h0
        subst h0
        rw [Nat.add_zero, Nat.mod_eq_of_lt hcur] at hkmem
        exact hkmem hmem
      obtain ⟨k', rfl⟩ : ∃ k', k = k' + 1 := ⟨k - 1, by omega⟩
      have hlen : 0 < s.apiTokens.length := by omega
      have h2 : (advanceCursor s).currentTokenIndex < (advanceCursor s).apiTokens.length := by
        simp only [advanceCursor]
        exact Nat.mod_lt _ hlen
      have h3 : ((advanceCursor s).currentTokenIndex + k') % (advanceCursor s).apiTokens.length
          ∉ (advanceCursor s).tokensExhausted := by
        simp only [advanceCursor]
        rw [Nat.mod_add_mod]
        have he : s.currentTokenIndex + 1 + k' = s.currentTokenIndex + (k' + 1) := by omega
        rw [he]
        exact hkmem
      obtain ⟨j, hj⟩ := ih (advanceCursor s) h2 ⟨k', by omega, h3⟩
      exact ⟨j, by simp [getNextLoop, hmem, hj]⟩
    · exact ⟨s.currentTokenIndex, by simp [getNextLoop, hmem]⟩

/-! ### Claim theorems: scraper -/

/-- C1: the claim says a credit-exhaustion failure retries without consuming
an attempt slot, so that even with maxAttempts = 1 an adapter raising
Credit-Exhausted once and then succeeding makes 2 adapter calls and returns
a non-empty sequence.  Evaluating the code at that failing input refutes
this: the `continue` at webscraper.py line 318 advances the Python
`for attempt in range(max_retries)` loop, so the only attempt slot is
consumed; the adapter is called exactly once, no sleep occurs, and the
result is empty — contradicting the comment at line 317 ("Don't count this
as a retry") and the claim. -/
theorem credit_error_consumes_attempt_slot :
    (scrape_restaurant_reviews (fun _ => true) creditThenSuccessAdapter 1 exTarget 0
        exPoolTwoTokens).adapterCalls = 1
    ∧ (scrape_restaurant_reviews (fun _ => true) creditThenSuccessAdapter 1 exTarget 0
        exPoolTwoTokens).sleeps = []
    ∧ (scrape_restaurant_reviews (fun _ => true) creditThenSuccessAdapter 1 exTarget 0
        exPoolTwoTokens).reviews = []
    ∧ (scrape_restaurant_reviews (fun _ => true) creditThenSuccessAdapter 2 exTarget 0
        exPoolTwoTokens).adapterCalls = 2
    ∧ (scrape_restaurant_reviews (fun _ => true) creditThenSuccessAdapter 2 exTarget 0
        exPoolTwoTokens).reviews ≠ [] := by
  refine ⟨rfl, rfl, rfl, rfl, ?_⟩
  decide

/-- C6: with maxAttempts = 3 against an adapter that always raises a
non-credit error, the adapter is invoked exactly 3 times, the controller
sleeps 2^0 = 1 second then 2^1 = 2 seconds between attempts, does not sleep
after the final attempt, and returns an empty sequence. -/
theorem scrape_transient_failure_backoff (tokens : List String) (htok : tokens ≠ [])
    (msg : String) (hmsg : is_credit_error msg = false) (tgt : ScrapeTarget) :
    (scrape_restaurant_reviews (fun _ => true) (fun _ => AdapterResult.errorRaised msg) 3 tgt 0
        ⟨tokens, 0, [], []⟩).adapterCalls = 3
    ∧ (scrape_restaurant_reviews (fun _ => true) (fun _ => AdapterResult.errorRaised msg) 3 tgt 0
        ⟨tokens, 0, [], []⟩).sleeps = [1, 2]
    ∧ (scrape_restaurant_reviews (fun _ => true) (fun _ => AdapterResult.errorRaised msg) 3 tgt 0
        ⟨tokens, 0, [], []⟩).reviews = [] := by
  obtain ⟨t, ts, rfl⟩ := List.exists_cons_of_ne_nil htok
  refine ⟨?_, ?_, ?_⟩ <;>
    simp [scrape_restaurant_reviews, scrapeLoop, get_next_available_client, getNextLoop,
      advanceCursor, hmsg]

/-- C6 witness: one token, an always-failing transient adapter. -/
theorem scrape_transient_failure_backoff_witness :
    (scrape_restaurant_reviews (fun _ => true) (fun _ => AdapterResult.errorRaised "network timeout")
        3 exTarget 0 ⟨["t1"], 0, [], []⟩).adapterCalls = 3
    ∧ (scrape_restaurant_reviews (fun _ => true)
        (fun _ => AdapterResult.errorRaised "network timeout") 3 exTarget 0
        ⟨["t1"], 0, [], []⟩).sleeps = [1, 2]
    ∧ (scrape_restaurant_reviews (fun _ => true)
        (fun _ => AdapterResult.errorRaised "network timeout") 3 exTarget 0
        ⟨["t1"], 0, [], []⟩).reviews = [] :=
  scrape_transient_failure_backoff ["t1"] (by decide) "network timeout" (by decide) exTarget

/-- C7: when every credential is marked exhausted, `get_next_available_client`
returns no client after scanning the whole pool, and
`scrape_restaurant_reviews` returns an empty sequence without a single
adapter invocation.  The hypothesis on the cursor is the invariant
maintained by the code (the cursor is always reduced modulo the pool
size). -/
theorem all_exhausted_none_and_no_adapter_call (creditOk : Nat → Bool) (cb : Bool)
    (adapter : Nat → AdapterResult) (maxRetries : Nat) (tgt : ScrapeTarget) (s : PoolState)
    (hcur : s.currentTokenIndex < s.apiTokens.length)
    (hall : ∀ i, i < s.apiTokens.length → i ∈ s.tokensExhausted) :
    (get_next_available_client creditOk cb s).2 = none
    ∧ (scrape_restaurant_reviews creditOk adapter maxRetries tgt 0 s).reviews = []
    ∧ (scrape_restaurant_reviews creditOk adapter maxRetries tgt 0 s).adapterCalls = 0 := by
  obtain ⟨s', hs'⟩ :=
    getNextLoop_none_of_all_exhausted creditOk cb s.apiTokens.length s hcur hall
  refine ⟨by simp [get_next_available_client, hs'], ?_⟩
  cases maxRetries with
  | zero => exact ⟨rfl, rfl⟩
  | succ m =>
    obtain ⟨s'', hs''⟩ :=
      getNextLoop_none_of_all_exhausted creditOk false s.apiTokens.length s hcur hall
    have hrun : scrape_restaurant_reviews creditOk adapter (m + 1) tgt 0 s = ⟨s'', 0, [], []⟩ := by
      simp [scrape_restaurant_reviews, scrapeLoop, get_next_available_client, hs'']
    rw [hrun]
    exact ⟨rfl, rfl⟩

/-- C7 witness: two tokens, both exhausted. -/
theorem all_exhausted_none_and_no_adapter_call_witness :
    (get_next_available_client (fun _ => true) false exPoolAllExhausted).2 = none
    ∧ (scrape_restaurant_reviews (fun _ => true) (fun _ => AdapterResult.invalidResponse) 3
        exTarget 0 exPoolAllExhausted).reviews = []
    ∧ (scrape_restaurant_reviews (fun _ => true) (fun _ => AdapterResult.invalidResponse) 3
        exTarget 0 exPoolAllExhausted).adapterCalls = 0 :=
  all_exhausted_none_and_no_adapter_call (fun _ => true) false
    (fun _ => AdapterResult.invalidResponse) 3 exTarget exPoolAllExhausted (by decide) (by decide)

/-- C8: once every credential is marked exhausted, the batch loop stops
before attempting the next target — the state and the adapter-call count
are unchanged whatever targets remain — and `scrape_multiple_restaurants`
returns exactly the reviews accumulated so far. -/
theorem batch_stops_after_exhaustion (creditOk : Nat → Bool) (adapter : Nat → AdapterResult)
    (maxRetries : Nat) (targets : List ScrapeTarget) (calls : Nat) (s : PoolState)
    (h : s.apiTokens.length ≤ s.tokensExhausted.length) :
    smrGo creditOk adapter maxRetries targets calls s = (s, calls)
    ∧ scrape_multiple_restaurants creditOk adapter maxRetries targets s
        = (s, 0, s.allReviews) := by
  have h1 : ∀ (ts : List ScrapeTarget) (cs : Nat),
      smrGo creditOk adapter maxRetries ts cs s = (s, cs) := by
    intro ts cs
    cases ts with
    | nil => rfl
    | cons t rest => simp [smrGo, h]
  refine ⟨h1 targets calls, ?_⟩
  simp [scrape_multiple_restaurants, h1]

/-- C8 witness: one token, already exhausted, one pending target. -/
theorem batch_stops_after_exhaustion_witness :
    smrGo (fun _ => true) (fun _ => AdapterResult.invalidResponse) 3 [exTarget] 0
        exPoolSingleExhausted = (exPoolSingleExhausted, 0)
    ∧ scrape_multiple_restaurants (fun _ => true) (fun _ => AdapterResult.invalidResponse) 3
        [exTarget] exPoolSingleExhausted = (exPoolSingleExhausted, 0, []) :=
  batch_stops_after_exhaustion (fun _ => true) (fun _ => AdapterResult.invalidResponse) 3
    [exTarget] 0 exPoolSingleExhausted (by decide)

/-- C10: a `get_next_available_client` call with the live credit check
disabled mutates only the rotation cursor — the token list, the exhausted
set and the accumulated reviews are unchanged — and whenever at least one
credential is unexhausted (with the cursor inside the pool, the invariant
the code maintains) it returns a credential rather than `none`. -/
theorem next_no_check_frame_and_rotation (creditOk : Nat → Bool) (s : PoolState) :
    ((get_next_available_client creditOk false s).1.apiTokens = s.apiTokens
      ∧ (get_next_available_client creditOk false s).1.tokensExhausted = s.tokensExhausted
      ∧ (get_next_available_client creditOk false s).1.allReviews = s.allReviews)
    ∧ (s.currentTokenIndex < s.apiTokens.length →
        (∃ i, i < s.apiTokens.length ∧ i ∉ s.tokensExhausted) →
        ∃ j, (get_next_available_client creditOk false s).2 = some j) := by
  constructor
  · exact getNextLoop_noCheck_frame creditOk s.apiTokens.length s
  · rintro hcur ⟨i, hi, hmem⟩
    by_cases hle : s.currentTokenIndex ≤ i
    · refine getNextLoop_noCheck_some creditOk s.apiTokens.length s hcur
        ⟨i - s.currentTokenIndex, by omega, ?_⟩
      rw [show s.currentTokenIndex + (i - s.currentTokenIndex) = i from by omega,
        Nat.mod_eq_of_lt hi]
      exact hmem
    · refine getNextLoop_noCheck_some creditOk s.apiTokens.length s hcur
        ⟨i + s.apiTokens.length - s.currentTokenIndex, by omega, ?_⟩
      rw [show s.currentTokenIndex + (i + s.apiTokens.length - s.currentTokenIndex)
            = i + s.apiTokens.length from by omega,
        Nat.add_mod_right, Nat.mod_eq_of_lt hi]
      exact hmem

/-- C10 witness: two tokens, index 0 exhausted, cursor at 0. -/
theorem next_no_check_frame_and_rotation_witness :
    ((get_next_available_client (fun _ => true) false exPoolOneExhausted).1.apiTokens
        = exPoolOneExhausted.apiTokens
      ∧ (get_next_available_client (fun _ => true) false exPoolOneExhausted).1.tokensExhausted
        = exPoolOneExhausted.tokensExhausted
      ∧ (get_next_available_client (fun _ => true) false exPoolOneExhausted).1.allReviews
        = exPoolOneExhausted.allReviews)
    ∧ ∃ j, (get_next_available_client (fun _ => true) false exPoolOneExhausted).2 = some j :=
  ⟨(next_no_check_frame_and_rotation (fun _ => true) exPoolOneExhausted).1,
   (next_no_check_frame_and_rotation (fun _ => true) exPoolOneExhausted).2 (by decide)
     ⟨1, by decide, by decide⟩⟩

/-- C2: the claim says `clean_reviews` never raises and maps the literal
strings "true"/"false" of an `is_local_guide` column to booleans.
Evaluating the code at a table containing that column refutes the
never-raises part: line 47 applies `.strip()` directly to a pandas Series
(instead of `.str.strip()`), which raises `AttributeError` the moment the
column exists — the chained `.str.lower()` on the same line shows the
intended spelling, so the code, not the claim, is at fault. -/
theorem local_guide_column_raises :
    clean_reviews exLocalGuideTable =
      Except.error "AttributeError: Series object has no attribute strip" := rfl

/-! ### Row and list lemmas -/

theorem rowVal_rowSet_self (r : Row) (c : String) (v : Value) :
    rowVal (rowSet r c v) c = v := by
  simp [rowVal, rowGet, rowSet, List.find?]

theorem rowVal_rowSet_ne (r : Row) (c c' : String) (v : Value) (h : c' ≠ c) :
    rowVal (rowSet r c v) c' = rowVal r c' := by
  have hb : (c == c') = false := by
    simp only [beq_eq_false_iff_ne, ne_eq]
    exact fun hh => h hh.symm
  simp [rowVal, rowGet, rowSet, List.find?, hb]

theorem rowVal_ite_rowSet {b : Prop} [Decidable b] (r : Row) (cset c : String) (w : Value)
    (h : c ≠ cset) :
    rowVal (if b then rowSet r cset w else r) c = rowVal r c := by
  split
  · exact rowVal_rowSet_ne r cset c w h
  · rfl

theorem getD_map_lt {α β : Type _} (f : α → β) :
    ∀ (l : List α) (i : Nat), i < l.length → ∀ (d : α) (d' : β),
      (l.map f).getD i d' = f (l.getD i d) := by
  intro l
  induction l with
  | nil => intro i h; exact absurd h (by simp)
  | cons a l ih =>
    intro i h d d'
    cases i with
    | zero => rfl
    | succ n => exact ih n (by simpa using h) d d'

theorem getD_mem {α : Type _} (d : α) :
    ∀ (l : List α) (i : Nat), i < l.length → l.getD i d ∈ l := by
  intro l
  induction l with
  | nil => intro i h; exact absurd h (by simp)
  | cons a l ih =>
    intro i h
    cases i with
    | zero => exact List.mem_cons_self a l
    | succ n => exact List.mem_cons_of_mem a (ih n (by simpa using h))

/-! ### Deduplication lemmas -/

theorem dedupGo_sub (cols : List String) :
    ∀ (rows : List Row) (seen : List String) (r : Row),
      r ∈ (dedupGo cols rows seen).1 → r ∈ rows := by
  intro rows
  induction rows with
  | nil => intro seen r h; simp [dedupGo] at h
  | cons a l ih =>
    intro seen r h
    by_cases hk : _make_composite_key cols a ∈ seen
    · simp only [dedupGo, if_pos hk] at h
      exact List.mem_cons_of_mem a (ih seen r h)
    · simp only [dedupGo, if_neg hk, List.mem_cons] at h
      rcases h with h | h
      · exact h ▸ List.mem_cons_self a l
      · exact List.mem_cons_of_mem a (ih _ r h)

theorem dedupGo_count (cols : List String) :
    ∀ (rows : List Row) (seen : List String),
      (dedupGo cols rows seen).1.length + (dedupGo cols rows seen).2 = rows.length := by
  intro rows
  induction rows with
  | nil => intro seen; rfl
  | cons a l ih =>
    intro seen
    by_cases hk : _make_composite_key cols a ∈ seen
    · simp only [dedupGo, if_pos hk]
      have := ih seen
      simp only [List.length_cons]
      omega
    · simp only [dedupGo, if_neg hk]
      have := ih (_make_composite_key cols a :: seen)
      simp only [List.length_cons]
      omega

/-- The keys of the kept rows are pairwise distinct and disjoint from the
keys already seen. -/
theorem dedupGo_nodup (cols : List String) :
    ∀ (rows : List Row) (seen : List String),
      ((dedupGo cols rows seen).1.map (_make_composite_key cols)).Nodup
      ∧ ∀ k ∈ (dedupGo cols rows seen).1.map (_make_composite_key cols), k ∉ seen := by
  intro rows
  induction rows with
  | nil => intro seen; simp [dedupGo]
  | cons a l ih =>
    intro seen
    by_cases hk : _make_composite_key cols a ∈ seen
    · simpa only [dedupGo, if_pos hk] using ih seen
    · obtain ⟨hnd, hdisj⟩ := ih (_make_composite_key cols a :: seen)
      simp only [dedupGo, if_neg hk, List.map_cons, List.nodup_cons]
      refine ⟨⟨fun hmem => ?_, hnd⟩, ?_⟩
      · exact (hdisj _ hmem) (List.mem_cons_self _ _)
      · intro k hkmem
        rcases List.mem_cons.mp hkmem with rfl | hkmem
        · exact hk
        · exact fun hks => (hdisj k hkmem) (List.mem_cons_of_mem _ hks)

/-- When the keys are already pairwise distinct (and unseen), deduplication
keeps every row and removes nothing. -/
theorem dedupGo_id_of_nodup (cols : List String) :
    ∀ (rows : List Row) (seen : List String),
      (rows.map (_make_composite_key cols)).Nodup →
      (∀ k ∈ rows.map (_make_composite_key cols), k ∉ seen) →
      dedupGo cols rows seen = (rows, 0) := by
  intro rows
  induction rows with
  | nil => intro seen _ _; rfl
  | cons a l ih =>
    intro seen hnd hdisj
    have hk : _make_composite_key cols a ∉ seen :=
      hdisj _ (List.mem_cons_self _ _)
    simp only [List.map_cons, List.nodup_cons] at hnd
    have hrec : dedupGo cols l (_make_composite_key cols a :: seen) = (l, 0) := by
      refine ih _ hnd.2 ?_
      intro k hkm
      rw [List.mem_cons]
      rintro (rfl | hks)
      · exact hnd.1 hkm
      · exact hdisj k (List.mem_cons_of_mem _ hkm) hks
    simp [dedupGo, hk, hrec]

/-- Refinement: the source dedup (which remembers only the keys of kept
rows) agrees with the spec wording (which scans the keys of all earlier
rows), because the two seen-sets always contain the same keys. -/
theorem dedupGo_eq_specDedup (cols : List String) :
    ∀ (rows : List Row) (s1 s2 : List String), (∀ k, k ∈ s1 ↔ k ∈ s2) →
      dedupGo cols rows s1 = specDedup cols rows s2 := by
  intro rows
  induction rows with
  | nil => intro s1 s2 _; rfl
  | cons a l ih =>
    intro s1 s2 hset
    by_cases hk : _make_composite_key cols a ∈ s1
    · have hk2 : _make_composite_key cols a ∈ s2 := (hset _).mp hk
      have hrec := ih s1 (s2 ++ [_make_composite_key cols a]) ?_
      · simp only [dedupGo, specDedup, if_pos hk, if_pos hk2, hrec]
      · intro k
        rw [List.mem_append, List.mem_singleton]
        constructor
        · intro hks; exact Or.inl ((hset k).mp hks)
        · rintro (hks | rfl)
          · exact (hset k).mpr hks
          · exact hk
    · have hk2 : _make_composite_key cols a ∉ s2 := fun hh => hk ((hset _).mpr hh)
      have hrec := ih (_make_composite_key cols a :: s1) (s2 ++ [_make_composite_key cols a]) ?_
      · simp only [dedupGo, specDedup, if_neg hk, if_neg hk2, hrec]
      · intro k
        rw [List.mem_cons, List.mem_append, List.mem_singleton]
        constructor
        · rintro (rfl | hks)
          · exact Or.inr rfl
          · exact Or.inl ((hset k).mp hks)
        · rintro (hks | rfl)
          · exact Or.inr ((hset k).mpr hks)
          · exact Or.inl rfl

/-- The composite key depends only on the five key-field renderings. -/
theorem make_key_congr (cols cols' : List String) (r r' : Row)
    (h : ∀ c ∈ keyFields, rowKeyStr cols r c = rowKeyStr cols' r' c) :
    _make_composite_key cols r = _make_composite_key cols' r' := by
  unfold _make_composite_key
  have : keyFields.map (rowKeyStr cols r) = keyFields.map (rowKeyStr cols' r') :=
    List.map_congr_left h
  rw [this]

/-! ### Cleaning-step lemmas -/

theorem mem_addCol (cols : List String) (a c : String) :
    c ∈ addCol cols a ↔ c ∈ cols ∨ c = a := by
  unfold addCol
  split
  · next hmem =>
    constructor
    · exact Or.inl
    · rintro (h | rfl)
      · exact h
      · exact hmem
  · simp [List.mem_append]

theorem numericStep_length (t : Table) : (numericStep t).rows.length = t.rows.length := by
  simp [numericStep]

theorem rowVal_numericRow (cols : List String) (r : Row) (c : String) (h : c ∉ numericCols) :
    rowVal (numericRow cols r) c = rowVal r c := by
  simp only [numericCols, List.mem_cons, List.not_mem_nil, or_false, not_or] at h
  obtain ⟨h1, h2, h3⟩ := h
  simp only [numericRow, numericCols, List.foldl_cons, List.foldl_nil]
  rw [rowVal_ite_rowSet _ _ _ _ h3, rowVal_ite_rowSet _ _ _ _ h2, rowVal_ite_rowSet _ _ _ _ h1]

theorem numericStep_rowVal_frame (t : Table) (c : String) (h : c ∉ numericCols)
    (i : Nat) (hi : i < t.rows.length) :
    rowVal ((numericStep t).rows.getD i []) c = rowVal (t.rows.getD i []) c := by
  simp only [numericStep]
  rw [getD_map_lt (numericRow t.cols) t.rows i hi [] []]
  exact rowVal_numericRow _ _ _ h

theorem tsStep_length (t : Table) : (tsStep t).rows.length = t.rows.length := by
  unfold tsStep
  split <;> simp

theorem tsStep_cols_mono (t : Table) (c : String) (h : c ∈ t.cols) : c ∈ (tsStep t).cols := by
  unfold tsStep
  split
  · simp only [mem_addCol]
    tauto
  · exact h

theorem tsStep_cols_sub (t : Table) (c : String) (h : c ∈ (tsStep t).cols) :
    c ∈ t.cols ∨ c ∈ tsDerivedCols := by
  unfold tsStep at h
  split at h
  · simp only [mem_addCol] at h
    simp only [tsDerivedCols, List.mem_cons, List.not_mem_nil, or_false]
    tauto
  · exact Or.inl h

theorem rowVal_tsRow_frame (useMs : Bool) (r : Row) (c : String) (h : c ∉ tsDerivedCols) :
    rowVal (tsRow useMs r) c = rowVal r c := by
  simp only [tsDerivedCols, List.mem_cons, List.not_mem_nil, or_false, not_or] at h
  obtain ⟨h1, h2, h3, h4⟩ := h
  simp only [tsRow]
  rw [rowVal_rowSet_ne _ _ _ _ h4, rowVal_rowSet_ne _ _ _ _ h3,
    rowVal_rowSet_ne _ _ _ _ h2, rowVal_rowSet_ne _ _ _ _ h1]

/-- The four cells assigned by the timestamp step of one row, in terms of
the row's timestamp cell. -/
theorem tsRow_vals (useMs : Bool) (r : Row) :
    (rowVal (tsRow useMs r) "review_datetime_utc"
      = match instantOf useMs (rowVal r "published_timestamp") with
        | some ns => Value.dt ns
        | none => Value.absent)
    ∧ (rowVal (tsRow useMs r) "review_date"
      = match instantOf useMs (rowVal r "published_timestamp") with
        | some ns =>
          Value.date (civilFromDays (ns.ediv NS_PER_DAY)).1
            (civilFromDays (ns.ediv NS_PER_DAY)).2.1 (civilFromDays (ns.ediv NS_PER_DAY)).2.2
        | none => Value.absent)
    ∧ (rowVal (tsRow useMs r) "review_year"
      = match instantOf useMs (rowVal r "published_timestamp") with
        | some ns => Value.num (civilFromDays (ns.ediv NS_PER_DAY)).1
        | none => Value.absent)
    ∧ (rowVal (tsRow useMs r) "review_month"
      = match instantOf useMs (rowVal r "published_timestamp") with
        | some ns => Value.num (civilFromDays (ns.ediv NS_PER_DAY)).2.1
        | none => Value.absent) := by
  have hDA : ∀ (x : Row) (v : Value),
      rowVal (rowSet x "review_month" v) "review_datetime_utc"
        = rowVal x "review_datetime_utc" := fun x v => rowVal_rowSet_ne x _ _ v (by decide)
  have hCA : ∀ (x : Row) (v : Value),
      rowVal (rowSet x "review_year" v) "review_datetime_utc"
        = rowVal x "review_datetime_utc" := fun x v => rowVal_rowSet_ne x _ _ v (by decide)
  have hBA : ∀ (x : Row) (v : Value),
      rowVal (rowSet x "review_date" v) "review_datetime_utc"
        = rowVal x "review_datetime_utc" := fun x v => rowVal_rowSet_ne x _ _ v (by decide)
  have hDB : ∀ (x : Row) (v : Value),
      rowVal (rowSet x "review_month" v) "review_date" = rowVal x "review_date" :=
    fun x v => rowVal_rowSet_ne x _ _ v (by decide)
  have hCB : ∀ (x : Row) (v : Value),
      rowVal (rowSet x "review_year" v) "review_date" = rowVal x "review_date" :=
    fun x v => rowVal_rowSet_ne x _ _ v (by decide)
  have hDC : ∀ (x : Row) (v : Value),
      rowVal (rowSet x "review_month" v) "review_year" = rowVal x "review_year" :=
    fun x v => rowVal_rowSet_ne x _ _ v (by decide)
  simp only [tsRow, hDA, hCA, hBA, hDB, hCB, hDC, rowVal_rowSet_self]
  cases instantOf useMs (rowVal r "published_timestamp") <;> simp

theorem tsStep_rowVal_frame (t : Table) (c : String) (h : c ∉ tsDerivedCols)
    (i : Nat) (hi : i < t.rows.length) :
    rowVal ((tsStep t).rows.getD i []) c = rowVal (t.rows.getD i []) c := by
  unfold tsStep
  split
  · simp only
    rw [getD_map_lt (tsRow (tsUseMs t.rows)) t.rows i hi [] []]
    exact rowVal_tsRow_frame _ _ _ h
  · rfl

theorem textStep_cols (t : Table) : (textStep t).cols = t.cols := by
  by_cases h : "review_text" ∈ t.cols
  · simp [textStep, h, addCol]
  · simp [textStep, h]

theorem textStep_length (t : Table) : (textStep t).rows.length = t.rows.length := by
  unfold textStep
  split <;> simp

theorem rowVal_textRow_frame (r : Row) (c : String) (h : c ≠ "review_text") :
    rowVal (textRow r) c = rowVal r c :=
  rowVal_rowSet_ne _ _ _ _ h

theorem textStep_rowVal_frame (t : Table) (c : String) (h : c ≠ "review_text")
    (i : Nat) (hi : i < t.rows.length) :
    rowVal ((textStep t).rows.getD i []) c = rowVal (t.rows.getD i []) c := by
  unfold textStep
  split
  · simp only
    rw [getD_map_lt textRow t.rows i hi [] []]
    exact rowVal_textRow_frame _ _ h
  · rfl

theorem textStep_rowVal_text (t : Table) (h : "review_text" ∈ t.cols)
    (i : Nat) (hi : i < t.rows.length) :
    rowVal ((textStep t).rows.getD i []) "review_text"
      = Value.str (normalizeText (rowVal (t.rows.getD i []) "review_text").pyStr) := by
  simp only [textStep, if_pos h]
  rw [getD_map_lt textRow t.rows i hi [] []]
  exact rowVal_rowSet_self _ _ _

theorem neighborhoodStep_length (t : Table) :
    (neighborhoodStep t).rows.length = t.rows.length := by
  unfold neighborhoodStep
  split <;> simp

theorem neighborhoodStep_cols_mono (t : Table) (c : String) (h : c ∈ t.cols) :
    c ∈ (neighborhoodStep t).cols := by
  unfold neighborhoodStep
  split
  · simp only [mem_addCol]
    tauto
  · exact h

theorem neighborhoodStep_cols_sub (t : Table) (c : String) (h : c ∈ (neighborhoodStep t).cols) :
    c ∈ t.cols ∨ c = "neighborhood_norm" ∨ c = "neighborhood_canon" := by
  unfold neighborhoodStep at h
  split at h
  · simp only [mem_addCol] at h
    tauto
  · exact Or.inl h

theorem rowVal_neighborhoodRow_frame (r : Row) (c : String)
    (h1 : c ≠ "neighborhood_norm") (h2 : c ≠ "neighborhood_canon") :
    rowVal (neighborhoodRow r) c = rowVal r c := by
  simp only [neighborhoodRow]
  rw [rowVal_rowSet_ne _ _ _ _ h2, rowVal_rowSet_ne _ _ _ _ h1]

theorem neighborhoodStep_rowVal_frame (t : Table) (c : String)
    (h1 : c ≠ "neighborhood_norm") (h2 : c ≠ "neighborhood_canon")
    (i : Nat) (hi : i < t.rows.length) :
    rowVal ((neighborhoodStep t).rows.getD i []) c = rowVal (t.rows.getD i []) c := by
  unfold neighborhoodStep
  split
  · simp only
    rw [getD_map_lt neighborhoodRow t.rows i hi [] []]
    exact rowVal_neighborhoodRow_frame _ _ h1 h2
  · rfl

/-- The unit vote is computed after the numeric-coercion step, but that
step never touches the timestamp column, so the vote agrees with the one
taken on the deduplicated rows. -/
theorem tsUseMs_numericStep (t : Table) : tsUseMs (numericStep t).rows = tsUseMs t.rows := by
  unfold tsUseMs numericStep
  simp only [List.filterMap_map, Function.comp_def]
  have hfun : (fun r : Row => toNumeric (rowVal (numericRow t.cols r) "published_timestamp"))
      = fun r : Row => toNumeric (rowVal r "published_timestamp") := by
    funext r
    rw [rowVal_numericRow _ _ _ (by decide)]
  rw [hfun]

/-! ### Pipeline-composition lemmas -/

/-- When the `is_local_guide` column is absent, `clean_reviews` completes
and returns the composed pipeline table with the dedup count. -/
theorem clean_reviews_eq (t : Table) (h : "is_local_guide" ∉ t.cols) :
    clean_reviews t = Except.ok (cleanPipeline t, (dedupGo t.cols t.rows []).2) := by
  simp only [clean_reviews, cleanPipeline, numericStep]
  rw [if_neg h]

theorem cleanPipeline_length (t : Table) :
    (cleanPipeline t).rows.length = (dedupGo t.cols t.rows []).1.length := by
  simp [cleanPipeline, neighborhoodStep_length, textStep_length, tsStep_length,
    numericStep_length, numericStep]

theorem cleanPipeline_cols_mono (t : Table) (c : String) (h : c ∈ t.cols) :
    c ∈ (cleanPipeline t).cols := by
  unfold cleanPipeline
  apply neighborhoodStep_cols_mono
  rw [textStep_cols]
  exact tsStep_cols_mono _ _ h

theorem cleanPipeline_cols_sub (t : Table) (c : String) (h : c ∈ (cleanPipeline t).cols) :
    c ∈ t.cols ∨ c ∈ tsDerivedCols ∨ c = "neighborhood_norm" ∨ c = "neighborhood_canon" := by
  unfold cleanPipeline at h
  rcases neighborhoodStep_cols_sub _ _ h with h | h | h
  · rw [textStep_cols] at h
    rcases tsStep_cols_sub _ _ h with h | h
    · exact Or.inl h
    · exact Or.inr (Or.inl h)
  · exact Or.inr (Or.inr (Or.inl h))
  · exact Or.inr (Or.inr (Or.inr h))

theorem cleanPipeline_cols_keyfield (t : Table) (c : String) (hc : c ∈ keyFields) :
    c ∈ (cleanPipeline t).cols ↔ c ∈ t.cols := by
  constructor
  · intro h
    rcases cleanPipeline_cols_sub t c h with h | h | h | h
    · exact h
    · exfalso
      simp only [keyFields, List.mem_cons, List.not_mem_nil, or_false] at hc
      rcases hc with rfl | rfl | rfl | rfl | rfl <;> simp [tsDerivedCols] at h
    · exfalso
      subst h
      simp [keyFields] at hc
    · exfalso
      subst h
      simp [keyFields] at hc
  · exact cleanPipeline_cols_mono t c

theorem cleanPipeline_no_local_guide (t : Table) (h : "is_local_guide" ∉ t.cols) :
    "is_local_guide" ∉ (cleanPipeline t).cols := by
  intro hmem
  rcases cleanPipeline_cols_sub t _ hmem with hh | hh | hh | hh
  · exact h hh
  · simp [tsDerivedCols] at hh
  · exact absurd hh (by decide)
  · exact absurd hh (by decide)

/-- A cell in a column no cleaning step assigns to passes through the whole
pipeline unchanged. -/
theorem cleanPipeline_rowVal_untouched (t : Table) (c : String)
    (hn : c ∉ numericCols) (hts : c ∉ tsDerivedCols) (htext : c ≠ "review_text")
    (hb1 : c ≠ "neighborhood_norm") (hb2 : c ≠ "neighborhood_canon")
    (i : Nat) (hi : i < (dedupGo t.cols t.rows []).1.length) :
    rowVal ((cleanPipeline t).rows.getD i []) c
      = rowVal ((dedupGo t.cols t.rows []).1.getD i []) c := by
  unfold cleanPipeline
  have l1 : i < (numericStep ⟨t.cols, (dedupGo t.cols t.rows []).1⟩).rows.length := by
    simpa [numericStep] using hi
  have l2 : i < (tsStep (numericStep ⟨t.cols, (dedupGo t.cols t.rows []).1⟩)).rows.length := by
    rw [tsStep_length]
    exact l1
  have l3 : i < (textStep (tsStep
      (numericStep ⟨t.cols, (dedupGo t.cols t.rows []).1⟩))).rows.length := by
    rw [textStep_length]
    exact l2
  rw [neighborhoodStep_rowVal_frame _ _ hb1 hb2 i l3,
    textStep_rowVal_frame _ _ htext i l2,
    tsStep_rowVal_frame _ _ hts i l1,
    numericStep_rowVal_frame _ _ hn i hi]

/-- When the table has a `review_text` column, the cleaned cell at every
row position is the whitespace-normalized rendering of the deduplicated
input cell. -/
theorem cleanPipeline_rowVal_review_text (t : Table) (hc : "review_text" ∈ t.cols)
    (i : Nat) (hi : i < (dedupGo t.cols t.rows []).1.length) :
    rowVal ((cleanPipeline t).rows.getD i []) "review_text"
      = Value.str (normalizeText
          (rowVal ((dedupGo t.cols t.rows []).1.getD i []) "review_text").pyStr) := by
  unfold cleanPipeline
  have l1 : i < (numericStep ⟨t.cols, (dedupGo t.cols t.rows []).1⟩).rows.length := by
    simpa [numericStep] using hi
  have l2 : i < (tsStep (numericStep ⟨t.cols, (dedupGo t.cols t.rows []).1⟩)).rows.length := by
    rw [tsStep_length]
    exact l1
  have l3 : i < (textStep (tsStep
      (numericStep ⟨t.cols, (dedupGo t.cols t.rows []).1⟩))).rows.length := by
    rw [textStep_length]
    exact l2
  have hc2 : "review_text" ∈ (tsStep
      (numericStep ⟨t.cols, (dedupGo t.cols t.rows []).1⟩)).cols :=
    tsStep_cols_mono _ _ hc
  rw [neighborhoodStep_rowVal_frame _ _ (by decide) (by decide) i l3,
    textStep_rowVal_text _ hc2 i l2,
    tsStep_rowVal_frame _ _ (by decide) i l1,
    numericStep_rowVal_frame _ _ (by decide) i hi]

/-- When the table has a `published_timestamp` column, the four derived
cells at every row position are determined by the unit vote over the
deduplicated column and the row's timestamp cell. -/
theorem cleanPipeline_rowVal_tsDerived (t : Table) (hts : "published_timestamp" ∈ t.cols)
    (i : Nat) (hi : i < (dedupGo t.cols t.rows []).1.length) :
    (rowVal ((cleanPipeline t).rows.getD i []) "review_datetime_utc"
      = match instantOf (tsUseMs (dedupGo t.cols t.rows []).1)
          (rowVal ((dedupGo t.cols t.rows []).1.getD i []) "published_timestamp") with
        | some ns => Value.dt ns
        | none => Value.absent)
    ∧ (rowVal ((cleanPipeline t).rows.getD i []) "review_date"
      = match instantOf (tsUseMs (dedupGo t.cols t.rows []).1)
          (rowVal ((dedupGo t.cols t.rows []).1.getD i []) "published_timestamp") with
        | some ns =>
          Value.date (civilFromDays (ns.ediv NS_PER_DAY)).1
            (civilFromDays (ns.ediv NS_PER_DAY)).2.1 (civilFromDays (ns.ediv NS_PER_DAY)).2.2
        | none => Value.absent)
    ∧ (rowVal ((cleanPipeline t).rows.getD i []) "review_year"
      = match instantOf (tsUseMs (dedupGo t.cols t.rows []).1)
          (rowVal ((dedupGo t.cols t.rows []).1.getD i []) "published_timestamp") with
        | some ns => Value.num (civilFromDays (ns.ediv NS_PER_DAY)).1
        | none => Value.absent)
    ∧ (rowVal ((cleanPipeline t).rows.getD i []) "review_month"
      = match instantOf (tsUseMs (dedupGo t.cols t.rows []).1)
          (rowVal ((dedupGo t.cols t.rows []).1.getD i []) "published_timestamp") with
        | some ns => Value.num (civilFromDays (ns.ediv NS_PER_DAY)).2.1
        | none => Value.absent) := by
  unfold cleanPipeline
  have l1 : i < (numericStep ⟨t.cols, (dedupGo t.cols t.rows []).1⟩).rows.length := by
    simpa [numericStep] using hi
  have l2 : i < (tsStep (numericStep ⟨t.cols, (dedupGo t.cols t.rows []).1⟩)).rows.length := by
    rw [tsStep_length]
    exact l1
  have l3 : i < (textStep (tsStep
      (numericStep ⟨t.cols, (dedupGo t.cols t.rows []).1⟩))).rows.length := by
    rw [textStep_length]
    exact l2
  have hts1 : "published_timestamp" ∈ (numericStep ⟨t.cols, (dedupGo t.cols t.rows []).1⟩).cols :=
    hts
  have htsrows : (tsStep (numericStep ⟨t.cols, (dedupGo t.cols t.rows []).1⟩)).rows
      = (numericStep ⟨t.cols, (dedupGo t.cols t.rows []).1⟩).rows.map
          (tsRow (tsUseMs (numericStep ⟨t.cols, (dedupGo t.cols t.rows []).1⟩).rows)) := by
    simp [tsStep, hts1]
  have hvals := tsRow_vals (tsUseMs (numericStep ⟨t.cols, (dedupGo t.cols t.rows []).1⟩).rows)
    ((numericStep ⟨t.cols, (dedupGo t.cols t.rows []).1⟩).rows.getD i [])
  have hpub : rowVal ((numericStep ⟨t.cols, (dedupGo t.cols t.rows []).1⟩).rows.getD i [])
      "published_timestamp"
      = rowVal ((dedupGo t.cols t.rows []).1.getD i []) "published_timestamp" :=
    numericStep_rowVal_frame _ _ (by decide) i hi
  have huse := tsUseMs_numericStep (⟨t.cols, (dedupGo t.cols t.rows []).1⟩ : Table)
  refine ⟨?_, ?_, ?_, ?_⟩ <;>
  · rw [neighborhoodStep_rowVal_frame _ _ (by decide) (by decide) i l3,
      textStep_rowVal_frame _ _ (by decide) i l2, htsrows,
      getD_map_lt _ _ i l1 [] []]
    rw [huse, hpub] at hvals
    rw [huse]
    first
    | exact hvals.1
    | exact hvals.2.1
    | exact hvals.2.2.1
    | exact hvals.2.2.2

/-! ### Claim theorems: cleaning pipeline -/

theorem getD_eq_get' {α : Type _} (d : α) :
    ∀ (l : List α) (i : Nat) (h : i < l.length), l.getD i d = l.get ⟨i, h⟩ := by
  intro l
  induction l with
  | nil => intro i h; exact absurd h (by simp)
  | cons a l ih =>
    intro i h
    cases i with
    | zero => rfl
    | succ n => exact ih n (by simpa using h)

theorem map_eq_of_getD {α β : Type _} (f g : α → β) (d : α) :
    ∀ (l1 l2 : List α), l1.length = l2.length →
      (∀ i, i < l1.length → f (l1.getD i d) = g (l2.getD i d)) →
      l1.map f = l2.map g := by
  intro l1
  induction l1 with
  | nil =>
    intro l2 hlen _
    cases l2 with
    | nil => rfl
    | cons b l2 => simp at hlen
  | cons a l1 ih =>
    intro l2 hlen h
    cases l2 with
    | nil => simp at hlen
    | cons b l2 =>
      have h0 := h 0 (by simp)
      simp only [List.map_cons]
      rw [show (a :: l1).getD 0 d = a from rfl, show (b :: l2).getD 0 d = b from rfl] at h0
      rw [h0, ih l2 (by simpa using hlen) (fun i hi => h (i + 1) (by simpa using hi))]

/-- A key-field rendering that no cleaning step assigns to is the same
before and after the pipeline. -/
theorem rowKeyStr_untouched (t : Table) (c : String)
    (hn : c ∉ numericCols) (hts : c ∉ tsDerivedCols) (htext : c ≠ "review_text")
    (hb1 : c ≠ "neighborhood_norm") (hb2 : c ≠ "neighborhood_canon")
    (hc : c ∈ keyFields)
    (i : Nat) (hi : i < (dedupGo t.cols t.rows []).1.length) :
    rowKeyStr (cleanPipeline t).cols ((cleanPipeline t).rows.getD i []) c
      = rowKeyStr t.cols ((dedupGo t.cols t.rows []).1.getD i []) c := by
  unfold rowKeyStr
  by_cases hmem : c ∈ t.cols
  · rw [if_pos ((cleanPipeline_cols_keyfield t c hc).mpr hmem), if_pos hmem,
      cleanPipeline_rowVal_untouched t c hn hts htext hb1 hb2 i hi]
  · rw [if_neg (fun hh => hmem ((cleanPipeline_cols_keyfield t c hc).mp hh)), if_neg hmem]

/-- The review-text key rendering is preserved by the pipeline provided
whitespace normalization fixes the deduplicated cell's rendering. -/
theorem rowKeyStr_review_text (t : Table) (i : Nat)
    (hi : i < (dedupGo t.cols t.rows []).1.length)
    (hnorm : normalizeText
        (rowKeyStr t.cols ((dedupGo t.cols t.rows []).1.getD i []) "review_text")
      = rowKeyStr t.cols ((dedupGo t.cols t.rows []).1.getD i []) "review_text") :
    rowKeyStr (cleanPipeline t).cols ((cleanPipeline t).rows.getD i []) "review_text"
      = rowKeyStr t.cols ((dedupGo t.cols t.rows []).1.getD i []) "review_text" := by
  by_cases hmem : "review_text" ∈ t.cols
  · have hks : rowKeyStr t.cols ((dedupGo t.cols t.rows []).1.getD i []) "review_text"
        = (rowVal ((dedupGo t.cols t.rows []).1.getD i []) "review_text").pyStr := by
      unfold rowKeyStr
      rw [if_pos hmem]
    unfold rowKeyStr
    rw [if_pos ((cleanPipeline_cols_keyfield t _ (by decide)).mpr hmem), if_pos hmem,
      cleanPipeline_rowVal_review_text t hmem i hi]
    rw [hks] at hnorm
    exact hnorm
  · unfold rowKeyStr
    rw [if_neg (fun hh => hmem ((cleanPipeline_cols_keyfield t _ (by decide)).mp hh)),
      if_neg hmem]

/-- C5: in `clean_reviews`, rows are dropped exactly when their composite
key — computed by `_make_composite_key` from the five fields review id,
restaurant name, reviewer name, review text and published timestamp only —
has already been seen: the source dedup agrees with the spec-worded scan
`specDedup` that keeps the first occurrence in input order, the count of
removed rows is what `clean_reviews` returns, kept rows have pairwise
distinct keys, and two rows agreeing on the five key-field renderings
receive equal keys regardless of the values of any other field. -/
theorem clean_dedup_first_occurrence_five_field_key (t : Table)
    (hlg : "is_local_guide" ∉ t.cols) :
    clean_reviews t = Except.ok (cleanPipeline t, (specDedup t.cols t.rows []).2)
    ∧ dedupGo t.cols t.rows [] = specDedup t.cols t.rows []
    ∧ (specDedup t.cols t.rows []).1.length + (specDedup t.cols t.rows []).2 = t.rows.length
    ∧ (cleanPipeline t).rows.length = (specDedup t.cols t.rows []).1.length
    ∧ ((specDedup t.cols t.rows []).1.map (_make_composite_key t.cols)).Nodup
    ∧ ∀ r1 r2 : Row, (∀ c ∈ keyFields, rowKeyStr t.cols r1 c = rowKeyStr t.cols r2 c) →
        _make_composite_key t.cols r1 = _make_composite_key t.cols r2 := by
  have hspec : dedupGo t.cols t.rows [] = specDedup t.cols t.rows [] :=
    dedupGo_eq_specDedup t.cols t.rows [] [] (fun k => Iff.rfl)
  refine ⟨?_, hspec, ?_, ?_, ?_, ?_⟩
  · rw [clean_reviews_eq t hlg, hspec]
  · rw [← hspec]
    exact dedupGo_count t.cols t.rows []
  · rw [← hspec]
    exact cleanPipeline_length t
  · rw [← hspec]
    exact (dedupGo_nodup t.cols t.rows []).1
  · intro r1 r2 h
    exact make_key_congr _ _ _ _ h

/-- C5 witness: two rows identical in the five key fields but with
different ratings collapse to one kept row, and the removed count 1 is
returned by `clean_reviews`. -/
theorem clean_dedup_first_occurrence_witness :
    clean_reviews exFiveFieldDupTable
      = Except.ok (cleanPipeline exFiveFieldDupTable,
          (specDedup exFiveFieldDupTable.cols exFiveFieldDupTable.rows []).2)
    ∧ (specDedup exFiveFieldDupTable.cols exFiveFieldDupTable.rows []).2 = 1
    ∧ (cleanPipeline exFiveFieldDupTable).rows.length = 1 :=
  ⟨(clean_dedup_first_occurrence_five_field_key exFiveFieldDupTable (by decide)).1,
   by decide, by decide⟩

/-- C9: after a successful clean of a table with a `review_text` column,
the column is still present, every cleaned review-text cell is a string,
and any kept row whose input review text was absent ends up with the
literal string "nan". -/
theorem clean_review_text_stringified (t : Table)
    (hlg : "is_local_guide" ∉ t.cols) (hc : "review_text" ∈ t.cols) :
    clean_reviews t = Except.ok (cleanPipeline t, (dedupGo t.cols t.rows []).2)
    ∧ "review_text" ∈ (cleanPipeline t).cols
    ∧ (∀ i, i < (cleanPipeline t).rows.length →
        ∃ s, rowVal ((cleanPipeline t).rows.getD i []) "review_text" = Value.str s)
    ∧ (∀ i, i < (cleanPipeline t).rows.length →
        rowVal ((dedupGo t.cols t.rows []).1.getD i []) "review_text" = Value.absent →
        rowVal ((cleanPipeline t).rows.getD i []) "review_text" = Value.str "nan") := by
  refine ⟨clean_reviews_eq t hlg, cleanPipeline_cols_mono t _ hc, ?_, ?_⟩
  · intro i hi
    rw [cleanPipeline_length] at hi
    exact ⟨_, cleanPipeline_rowVal_review_text t hc i hi⟩
  · intro i hi habs
    rw [cleanPipeline_length] at hi
    rw [cleanPipeline_rowVal_review_text t hc i hi, habs]
    rfl

/-- C9 witness: one row with an absent review text becomes the string
"nan". -/
theorem clean_review_text_stringified_witness :
    rowVal ((cleanPipeline exAbsentTextTable).rows.getD 0 []) "review_text"
      = Value.str "nan" :=
  (clean_review_text_stringified exAbsentTextTable (by decide) (by decide)).2.2.2 0
    (by decide) (by decide)

/-- C4 counterexample: the claim says every value of a timestamp column is
converted to a UTC instant, with absent results only for values failing
numeric coercion.  The single value 10^13 coerces numerically and votes
the column to milliseconds, but 10^13 ms = 10^19 ns exceeds the
representable datetime range, so `pd.to_datetime(..., errors="coerce")`
yields NaT: the instant and the derived fields come out absent. -/
theorem timestamp_out_of_range_drops_value :
    (toNumeric (Value.num 10000000000000)).isSome = true
    ∧ tsUseMs (dedupGo exOutOfRangeTsTable.cols exOutOfRangeTsTable.rows []).1 = true
    ∧ clean_reviews exOutOfRangeTsTable = Except.ok (cleanPipeline exOutOfRangeTsTable, 0)
    ∧ rowVal ((cleanPipeline exOutOfRangeTsTable).rows.getD 0 []) "review_datetime_utc"
        = Value.absent
    ∧ rowVal ((cleanPipeline exOutOfRangeTsTable).rows.getD 0 []) "review_year"
        = Value.absent :=
  ⟨rfl, rfl, rfl, rfl, rfl⟩

/-- C4 (amended): when `published_timestamp` is present and the clean
succeeds, the whole column is interpreted as milliseconds exactly when
strictly more than half of its non-absent numeric values exceed 10^12 and
as seconds otherwise; every value whose scaled instant fits the
representable datetime range (magnitude at most 2^63 - 1 nanoseconds) is
converted to a UTC instant with derived date, year and month columns; and
every value that fails numeric coercion — and every value whose scaled
instant falls outside that range — yields an absent instant and absent
derived fields. -/
theorem clean_timestamp_unit_vote_and_conversion (t : Table)
    (hlg : "is_local_guide" ∉ t.cols) (hts : "published_timestamp" ∈ t.cols) :
    clean_reviews t = Except.ok (cleanPipeline t, (dedupGo t.cols t.rows []).2)
    ∧ (tsUseMs (dedupGo t.cols t.rows []).1 = true ↔
        ((dedupGo t.cols t.rows []).1.filterMap
            (fun r => toNumeric (rowVal r "published_timestamp"))).length
          < 2 * (((dedupGo t.cols t.rows []).1.filterMap
              (fun r => toNumeric (rowVal r "published_timestamp"))).filter
              (fun v => decide (1000000000000 < v))).length)
    ∧ ∀ i, i < (dedupGo t.cols t.rows []).1.length →
      ((toNumeric (rowVal ((dedupGo t.cols t.rows []).1.getD i []) "published_timestamp")
          = none →
          rowVal ((cleanPipeline t).rows.getD i []) "review_datetime_utc" = Value.absent
          ∧ rowVal ((cleanPipeline t).rows.getD i []) "review_date" = Value.absent
          ∧ rowVal ((cleanPipeline t).rows.getD i []) "review_year" = Value.absent
          ∧ rowVal ((cleanPipeline t).rows.getD i []) "review_month" = Value.absent)
      ∧ ∀ v : Int,
          toNumeric (rowVal ((dedupGo t.cols t.rows []).1.getD i []) "published_timestamp")
            = some v →
          ((-nsMax ≤ v * (if tsUseMs (dedupGo t.cols t.rows []).1 then 1000000 else 1000000000)
            ∧ v * (if tsUseMs (dedupGo t.cols t.rows []).1 then 1000000 else 1000000000)
              ≤ nsMax) →
            rowVal ((cleanPipeline t).rows.getD i []) "review_datetime_utc"
              = Value.dt (v * (if tsUseMs (dedupGo t.cols t.rows []).1 then 1000000
                  else 1000000000))
            ∧ rowVal ((cleanPipeline t).rows.getD i []) "review_date"
              = Value.date
                  (civilFromDays ((v * (if tsUseMs (dedupGo t.cols t.rows []).1 then 1000000
                    else 1000000000)).ediv NS_PER_DAY)).1
                  (civilFromDays ((v * (if tsUseMs (dedupGo t.cols t.rows []).1 then 1000000
                    else 1000000000)).ediv NS_PER_DAY)).2.1
                  (civilFromDays ((v * (if tsUseMs (dedupGo t.cols t.rows []).1 then 1000000
                    else 1000000000)).ediv NS_PER_DAY)).2.2
            ∧ rowVal ((cleanPipeline t).rows.getD i []) "review_year"
              = Value.num (civilFromDays ((v * (if tsUseMs (dedupGo t.cols t.rows []).1
                  then 1000000 else 1000000000)).ediv NS_PER_DAY)).1
            ∧ rowVal ((cleanPipeline t).rows.getD i []) "review_month"
              = Value.num (civilFromDays ((v * (if tsUseMs (dedupGo t.cols t.rows []).1
                  then 1000000 else 1000000000)).ediv NS_PER_DAY)).2.1)
          ∧ (¬ (-nsMax ≤ v * (if tsUseMs (dedupGo t.cols t.rows []).1 then 1000000
                else 1000000000)
              ∧ v * (if tsUseMs (dedupGo t.cols t.rows []).1 then 1000000 else 1000000000)
                ≤ nsMax) →
            rowVal ((cleanPipeline t).rows.getD i []) "review_datetime_utc" = Value.absent
            ∧ rowVal ((cleanPipeline t).rows.getD i []) "review_date" = Value.absent
            ∧ rowVal ((cleanPipeline t).rows.getD i []) "review_year" = Value.absent
            ∧ rowVal ((cleanPipeline t).rows.getD i []) "review_month" = Value.absent)) := by
  refine ⟨clean_reviews_eq t hlg, ?_, ?_⟩
  · unfold tsUseMs
    simp [decide_eq_true_eq]
  · intro i hi
    have hcells := cleanPipeline_rowVal_tsDerived t hts i hi
    constructor
    · intro hnone
      have hinst : instantOf (tsUseMs (dedupGo t.cols t.rows []).1)
          (rowVal ((dedupGo t.cols t.rows []).1.getD i []) "published_timestamp") = none := by
        simp only [instantOf, hnone]
      rw [hinst] at hcells
      exact hcells
    · intro v hv
      constructor
      · intro hrange
        have hinst : instantOf (tsUseMs (dedupGo t.cols t.rows []).1)
            (rowVal ((dedupGo t.cols t.rows []).1.getD i []) "published_timestamp")
            = some (v * (if tsUseMs (dedupGo t.cols t.rows []).1 then 1000000
                else 1000000000)) := by
          simp only [instantOf, hv]
          rw [if_pos hrange]
        rw [hinst] at hcells
        exact hcells
      · intro hrange
        have hinst : instantOf (tsUseMs (dedupGo t.cols t.rows []).1)
            (rowVal ((dedupGo t.cols t.rows []).1.getD i []) "published_timestamp") = none := by
          simp only [instantOf, hv]
          rw [if_neg hrange]
        rw [hinst] at hcells
        exact hcells

/-- C4 witness: a mostly-large column is read as milliseconds, a
mostly-small column as seconds, and a coercion failure yields absent. -/
theorem clean_timestamp_unit_vote_witness :
    rowVal ((cleanPipeline exMostlyLargeTsTable).rows.getD 0 []) "review_datetime_utc"
      = Value.dt 2000000000000000000
    ∧ rowVal ((cleanPipeline exMostlySmallTsTable).rows.getD 0 []) "review_datetime_utc"
      = Value.dt 1600000000000000000
    ∧ rowVal ((cleanPipeline exMostlyLargeTsTable).rows.getD 2 []) "review_datetime_utc"
      = Value.absent := by
  have h1 := ((clean_timestamp_unit_vote_and_conversion exMostlyLargeTsTable (by decide)
    (by decide)).2.2 0 (by decide)).2 2000000000000 (by decide)
  have h2 := ((clean_timestamp_unit_vote_and_conversion exMostlySmallTsTable (by decide)
    (by decide)).2.2 0 (by decide)).2 1600000000 (by decide)
  have h3 := ((clean_timestamp_unit_vote_and_conversion exMostlyLargeTsTable (by decide)
    (by decide)).2.2 2 (by decide)).1 (by decide)
  have hms : tsUseMs (dedupGo exMostlyLargeTsTable.cols exMostlyLargeTsTable.rows []).1
      = true := by decide
  have hs : tsUseMs (dedupGo exMostlySmallTsTable.cols exMostlySmallTsTable.rows []).1
      = false := by decide
  refine ⟨?_, ?_, h3.1⟩
  · have h := (h1.1 (by rw [hms]; decide)).1
    rw [hms] at h
    simpa using h
  · have h := (h2.1 (by rw [hs]; decide)).1
    rw [hs] at h
    simpa using h

/-- C3 counterexample: two rows whose review texts differ only in
surrounding whitespace have distinct composite keys on the first run (both
are kept, zero duplicates removed), but the text cleanup then maps both
texts to "hi", so running the Normalizer a second time on its own output
finds a duplicate key and removes one more row — not zero as claimed. -/
theorem second_run_removes_extra_duplicate :
    secondRunDupes exWhitespaceDupTable = some 1
    ∧ secondRunDupes exWhitespaceDupTable ≠ some 0 :=
  ⟨rfl, by decide⟩

/-- C3 (amended): a second run of the Normalizer on its own cleaned output
removes zero additional duplicates provided whitespace normalization leaves
every review-text key rendering of the input unchanged (in particular for
already-normalized texts); without that proviso the claim fails, because
the text cleanup runs after dedup and can merge previously distinct
composite keys. -/
theorem clean_dedup_idempotent_on_whitespace_normal_text (t : Table)
    (hlg : "is_local_guide" ∉ t.cols)
    (hnorm : ∀ r ∈ t.rows,
      normalizeText (rowKeyStr t.cols r "review_text") = rowKeyStr t.cols r "review_text") :
    secondRunDupes t = some 0 := by
  have h1 := clean_reviews_eq t hlg
  have hlg2 := cleanPipeline_no_local_guide t hlg
  have h2 := clean_reviews_eq (cleanPipeline t) hlg2
  have hkeymap : (cleanPipeline t).rows.map (_make_composite_key (cleanPipeline t).cols)
      = (dedupGo t.cols t.rows []).1.map (_make_composite_key t.cols) := by
    apply map_eq_of_getD _ _ ([] : Row)
    · exact cleanPipeline_length t
    · intro i hi
      rw [cleanPipeline_length t] at hi
      apply make_key_congr
      intro c hc
      have hmemrow : (dedupGo t.cols t.rows []).1.getD i [] ∈ t.rows :=
        dedupGo_sub t.cols t.rows [] _ (getD_mem [] _ i hi)
      have hc' := hc
      simp only [keyFields, List.mem_cons, List.not_mem_nil, or_false] at hc'
      rcases hc' with rfl | rfl | rfl | rfl | rfl
      · exact rowKeyStr_untouched t _ (by decide) (by decide) (by decide) (by decide)
          (by decide) hc i hi
      · exact rowKeyStr_untouched t _ (by decide) (by decide) (by decide) (by decide)
          (by decide) hc i hi
      · exact rowKeyStr_untouched t _ (by decide) (by decide) (by decide) (by decide)
          (by decide) hc i hi
      · exact rowKeyStr_review_text t i hi (hnorm _ hmemrow)
      · exact rowKeyStr_untouched t _ (by decide) (by decide) (by decide) (by decide)
          (by decide) hc i hi
  have hnodup := (dedupGo_nodup t.cols t.rows []).1
  rw [← hkeymap] at hnodup
  have hid := dedupGo_id_of_nodup (cleanPipeline t).cols (cleanPipeline t).rows [] hnodup
    (fun k _ => List.not_mem_nil k)
  unfold secondRunDupes
  rw [h1]
  simp only [h2, hid]

/-- C3 witness: a table whose single review text is already
whitespace-normal re-cleans with zero additional duplicates. -/
theorem clean_dedup_idempotent_witness :
    secondRunDupes exNormalTextTable = some 0 :=
  clean_dedup_idempotent_on_whitespace_normal_text exNormalTextTable (by decide) (by decide)
